import Mathlib

/-
Shallow embedding of the RAGE_Monad arena/settlement engine.

Sources:
- src/server.ts (lines 1-125): the authoritative socket server — the arena
  list, the 1-second settlement tick, logActivity, and the four command
  handlers (create-arena, submit-roast, stake-roast, join).
- src/server.ts lines 230-265 (the client bundled after the first document
  separator) and src/unnamed/part_000 lines 93-140: processPayout /
  resolveArena, the client-side payout computation.

Modelling conventions: JS numbers holding stakes (0.05, 0.07, ...) are
embedded as exact rationals ℚ; Date.now() timestamps are ℕ milliseconds;
Math.random() id generation is embedded as an explicit fresh-id supply
(a counter carried in the state); io.emit of a state-update (the arena
collection broadcast) is recorded by appending the emitted snapshot to a
broadcast trace in the state.
-/

/-- status : 'active' | 'resolved' (src/server.ts, the two string tags). -/
inductive Status where
  | active : Status
  | resolved : Status
deriving DecidableEq, Repr

/-- RoastEntry (the Entry of the spec), from the type declarations in
src/unnamed/part_000 lines 13-21. -/
structure RoastEntry where
  id : String
  roasterId : String
  roasterName : String
  text : String
  entryStake : ℚ
  backedStake : ℚ
  myBackedAmount : ℚ
deriving DecidableEq, Repr

/-- Arena record, from the type declarations in src/unnamed/part_000
lines 23-35.  winnerRoastId is optional (undefined until resolution). -/
structure Arena where
  id : String
  opId : String
  opName : String
  opHandle : String
  opAvatar : String
  text : String
  stake : ℚ
  endTime : ℕ
  status : Status
  winnerRoastId : Option String
  roasts : List RoastEntry
deriving DecidableEq, Repr

/-- ActivityLog record (src/server.ts line 56). -/
structure ActivityEntry where
  id : String
  message : String
  timestamp : ℕ
deriving DecidableEq, Repr

/-- The payload an observer sends with create-arena
(src/server.ts line 73, spread into the new arena). -/
structure ArenaData where
  opId : String
  opName : String
  opHandle : String
  opAvatar : String
  text : String
deriving DecidableEq, Repr

/-- The server's module-level mutable state (src/server.ts lines 17-19)
plus the trace of emitted state-update broadcasts and the fresh-id
counter standing in for Math.random. -/
structure ServerState where
  arenas : List Arena
  activityLog : List ActivityEntry
  broadcasts : List (List Arena)
  nextId : ℕ
deriving DecidableEq, Repr

/-- arena.roasts.reduce((prev, current) =>
      (current.backedStake > prev.backedStake) ? current : prev)
(src/server.ts lines 37-39).  JS reduce without a seed uses the first
element as the accumulator, so the first argument is the head roast. -/
def reduceWinner (r : RoastEntry) (rs : List RoastEntry) : RoastEntry :=
  rs.foldl (fun prev current =>
    if prev.backedStake < current.backedStake then current else prev) r

/-- One arena's step of the settlement tick (src/server.ts lines 27-48):
an active arena past its endTime is resolved, logging one message;
everything else is returned unchanged.  Returns the (possibly) updated
arena together with the list of messages passed to logActivity (the
emoji decoration of the winner message is dropped). -/
def tickArena (now : ℕ) (arena : Arena) : Arena × List String :=
  if arena.status = Status.active ∧ arena.endTime ≤ now then
    match arena.roasts with
    | [] =>
        ({ arena with status := Status.resolved },
         ["Arena by " ++ arena.opHandle ++ " closed with no roasts."])
    | r :: rs =>
        let winner := reduceWinner r rs
        ({ arena with status := Status.resolved,
                      winnerRoastId := some winner.id },
         ["ROAST WARS ENDED: " ++ winner.roasterName ++ " won the pool!"])
  else (arena, [])

/-- logActivity (src/server.ts lines 55-59):
activityLog = [log, ...activityLog].slice(0, 15), with the random id
replaced by the fresh-id counter. -/
def logActivity (now : ℕ) (msg : String) (s : ServerState) : ServerState :=
  { s with
    activityLog :=
      ({ id := toString s.nextId, message := msg, timestamp := now }
        :: s.activityLog).take 15,
    nextId := s.nextId + 1 }

/-- The settlement tick body (src/server.ts lines 22-53): map every arena
through tickArena, log the produced messages, and emit one state-update
broadcast of the whole collection iff didUpdate — i.e. iff some arena
was active with endTime ≤ now. -/
def tick (now : ℕ) (s : ServerState) : ServerState :=
  let results := s.arenas.map (tickArena now)
  let didUpdate := s.arenas.any
    (fun a => decide (a.status = Status.active ∧ a.endTime ≤ now))
  let s1 : ServerState := { s with arenas := results.map Prod.fst }
  let s2 := (results.map Prod.snd).flatten.foldl
    (fun t m => logActivity now m t) s1
  if didUpdate then { s2 with broadcasts := s2.broadcasts ++ [s2.arenas] }
  else s2

/-- The new arena built by the create-arena handler
(src/server.ts lines 74-81): spreads arenaData, then fixes id,
stake = 0.05, endTime = now + 5 * 60 * 1000, status active, roasts []. -/
def createArena (arenaData : ArenaData) (newId : String) (now : ℕ) : Arena :=
  { id := newId
    opId := arenaData.opId
    opName := arenaData.opName
    opHandle := arenaData.opHandle
    opAvatar := arenaData.opAvatar
    text := arenaData.text
    stake := 5 / 100
    endTime := now + 5 * 60 * 1000
    status := Status.active
    winnerRoastId := none
    roasts := [] }

/-- create-arena handler (src/server.ts lines 73-85): prepend the new
arena, log, broadcast. -/
def createArenaHandler (arenaData : ArenaData) (newId : String) (now : ℕ)
    (s : ServerState) : ServerState :=
  let newArena := createArena arenaData newId now
  let s1 : ServerState := { s with arenas := newArena :: s.arenas }
  let s2 := logActivity now (arenaData.opHandle ++ " dropped a new Ragebait!") s1
  { s2 with broadcasts := s2.broadcasts ++ [s2.arenas] }

/-- submit-roast handler (src/server.ts lines 87-97): append roastData to
the roasts of the arena whose id matches (no status check, no existence
check), log, broadcast unconditionally. -/
def submitRoast (arenaId : String) (roastData : RoastEntry) (now : ℕ)
    (s : ServerState) : ServerState :=
  let s1 : ServerState := { s with arenas := s.arenas.map (fun arena =>
      if arena.id ≠ arenaId then arena
      else { arena with roasts := arena.roasts ++ [roastData] }) }
  let s2 := logActivity now
    (roastData.roasterName ++ " entered the arena with a roast.") s1
  { s2 with broadcasts := s2.broadcasts ++ [s2.arenas] }

/-- stake-roast handler (src/server.ts lines 99-115): add amount to the
matching roast's backedStake (no status check, no existence check), log,
broadcast unconditionally. -/
def stakeRoast (arenaId roastId : String) (amount : ℚ) (userHandle : String)
    (now : ℕ) (s : ServerState) : ServerState :=
  let s1 : ServerState := { s with arenas := s.arenas.map (fun arena =>
      if arena.id ≠ arenaId then arena
      else { arena with roasts := arena.roasts.map (fun roast =>
          if roast.id ≠ roastId then roast
          else { roast with backedStake := roast.backedStake + amount }) }) }
  let s2 := logActivity now
    (userHandle ++ " staked " ++ toString amount ++ " MND on a roast!") s1
  { s2 with broadcasts := s2.broadcasts ++ [s2.arenas] }

/-- join handler (src/server.ts lines 69-71): log only, no state-update. -/
def joinHandler (userHandle : String) (now : ℕ) (s : ServerState) :
    ServerState :=
  logActivity now (userHandle ++ " joined the room.") s

/-- The closed set of inbound events the server reacts to, plus the
settlement tick. -/
inductive Cmd where
  | tick (now : ℕ)
  | create (arenaData : ArenaData) (newId : String) (now : ℕ)
  | submit (arenaId : String) (roastData : RoastEntry) (now : ℕ)
  | stake (arenaId roastId : String) (amount : ℚ) (userHandle : String) (now : ℕ)
  | join (userHandle : String) (now : ℕ)

/-- Dispatch one command to its handler. -/
def applyCmd : Cmd → ServerState → ServerState
  | Cmd.tick now, s => tick now s
  | Cmd.create d i now, s => createArenaHandler d i now s
  | Cmd.submit aid rd now, s => submitRoast aid rd now s
  | Cmd.stake aid rid amt u now, s => stakeRoast aid rid amt u now s
  | Cmd.join u now, s => joinHandler u now s

/-- Run a sequence of commands in arrival order. -/
def run : List Cmd → ServerState → ServerState
  | [], s => s
  | c :: cs, s => run cs (applyCmd c s)

/-- The server's initial state: arenas = [], activityLog = []
(src/server.ts lines 18-19), nothing broadcast yet. -/
def initState : ServerState :=
  { arenas := [], activityLog := [], broadcasts := [], nextId := 0 }

/-- processPayout (src/server.ts lines 230-265, the client document;
identical to the payout block of resolveArena in src/unnamed/part_000
lines 112-137): the payout credited to the given user when an arena
resolves — the backer share, the winning-roaster reward and the OP
reward, summed. -/
def processPayout (currentUserId : String) (arena : Arena) : ℚ :=
  if arena.roasts.length = 0 then 0 else
  match arena.winnerRoastId with
  | none => 0
  | some wid =>
    match arena.roasts.find? (fun r => r.id == wid) with
    | none => 0
    | some winner =>
      let losingBackingPool :=
        (arena.roasts.filter (fun r => r.id != winner.id)).foldl
          (fun sum r => sum + r.backedStake) 0
      let winnerBackingPool := winner.backedStake
      let payout1 :=
        if 0 < winner.myBackedAmount ∧ 0 < winnerBackingPool then
          winner.myBackedAmount +
            (winner.myBackedAmount / winnerBackingPool) *
              (9 / 10 * losingBackingPool)
        else 0
      let payout2 :=
        if winner.roasterId = currentUserId then
          7 / 10 * arena.stake +
            7 / 10 * ((arena.roasts.length : ℚ) - 1) * (1 / 100)
        else 0
      let payout3 :=
        if arena.opId = currentUserId then
          1 / 20 * (losingBackingPool + winnerBackingPool)
        else 0
      payout1 + payout2 + payout3

/-- The spec's backer-share formula, stated from the spec's words
(share_b = c_b + (c_b / W) × 0.9 × L), to be compared with
processPayout. -/
def specBackerShare (c W L : ℚ) : ℚ :=
  c + c / W * (9 / 10) * L

/-- The spec's losing pool L: the sum of backedTotal over all non-winning
entries. -/
def specLosingPool (arena : Arena) (winnerId : String) : ℚ :=
  ((arena.roasts.filter (fun r => r.id != winnerId)).map
    (fun r => r.backedStake)).sum

/-- Mock roast r1 (src/unnamed/part_000 line 56). -/
def roastR1 : RoastEntry :=
  { id := "r1", roasterId := "u2", roasterName := "Sankalp",
    text := "Skill issue bro.", entryStake := 1 / 100,
    backedStake := 7 / 100, myBackedAmount := 0 }

/-- Mock roast r2 (src/unnamed/part_000 line 57). -/
def roastR2 : RoastEntry :=
  { id := "r2", roasterId := "u3", roasterName := "Aman",
    text := "Bro writes require() and feels powerful.",
    entryStake := 1 / 100, backedStake := 4 / 100, myBackedAmount := 0 }

/-- Mock arena a1 (src/unnamed/part_000 lines 44-60), with its creation
instant taken as time 0, so endTime = 300000 ms. -/
def mockArena : Arena :=
  { id := "a1", opId := "u1", opName := "DuveshTheDev",
    opHandle := "@duvesh_dev", opAvatar := "D",
    text := "I use ChatGPT for every API call. Documentation is for boomers.",
    stake := 5 / 100, endTime := 300000, status := Status.active,
    winnerRoastId := none, roasts := [roastR1, roastR2] }

/-- The mock arena after resolution (winner r1). -/
def resolvedArenaEx : Arena :=
  { mockArena with status := Status.resolved, winnerRoastId := some "r1" }

/-- A server state holding exactly the resolved mock arena. -/
def sResolved : ServerState :=
  { arenas := [resolvedArenaEx], activityLog := [], broadcasts := [],
    nextId := 0 }

/-- A server state holding the still-active mock arena (expired at
now = 300000). -/
def sExpired : ServerState :=
  { arenas := [mockArena], activityLog := [], broadcasts := [], nextId := 0 }

/-- A roast submitted after resolution. -/
def newRoastEx : RoastEntry :=
  { id := "r9", roasterId := "u9", roasterName := "Latecomer",
    text := "too late", entryStake := 1 / 100, backedStake := 0,
    myBackedAmount := 0 }

/-- r1 as seen by a client whose user backed the full 0.07 pool. -/
def roastR1Backed : RoastEntry := { roastR1 with myBackedAmount := 7 / 100 }

/-- The resolved mock arena as seen by that fully-backing client. -/
def resolvedArenaC6 : Arena :=
  { mockArena with
    status := Status.resolved
    winnerRoastId := some "r1"
    roasts := [roastR1Backed, roastR2] }

theorem reduceWinner_nil (r : RoastEntry) : reduceWinner r [] = r := rfl

theorem reduceWinner_cons (r c : RoastEntry) (rest : List RoastEntry) :
    reduceWinner r (c :: rest) =
      reduceWinner (if r.backedStake < c.backedStake then c else r) rest := rfl

/-- The reduce result dominates every roast fed to it. -/
theorem reduceWinner_le (rs : List RoastEntry) :
    ∀ r, ∀ x ∈ r :: rs, x.backedStake ≤ (reduceWinner r rs).backedStake := by
  induction rs with
  | nil =>
    intro r x hx
    rw [List.mem_singleton] at hx
    subst hx
    exact le_refl _
  | cons c rest ih =>
    intro r x hx
    rw [reduceWinner_cons]
    have hstep :
        r.backedStake ≤
            (if r.backedStake < c.backedStake then c else r).backedStake ∧
          c.backedStake ≤
            (if r.backedStake < c.backedStake then c else r).backedStake := by
      by_cases h : r.backedStake < c.backedStake
      · rw [if_pos h]; exact ⟨le_of_lt h, le_refl _⟩
      · rw [if_neg h]; exact ⟨le_refl _, le_of_not_lt h⟩
    rcases List.mem_cons.mp hx with hx | hx
    · subst hx
      exact le_trans hstep.1 (ih _ _ (List.mem_cons_self _ _))
    rcases List.mem_cons.mp hx with hx | hx
    · subst hx
      exact le_trans hstep.2 (ih _ _ (List.mem_cons_self _ _))
    · exact ih _ x (List.mem_cons_of_mem _ hx)

/-- The reduce result is one of the roasts fed to it. -/
theorem reduceWinner_mem (rs : List RoastEntry) :
    ∀ r, reduceWinner r rs ∈ r :: rs := by
  induction rs with
  | nil =>
    intro r
    rw [reduceWinner_nil]
    exact List.mem_cons_self _ _
  | cons c rest ih =>
    intro r
    rw [reduceWinner_cons]
    have h := ih (if r.backedStake < c.backedStake then c else r)
    rcases List.mem_cons.mp h with h1 | h1
    · rw [h1]
      by_cases hb : r.backedStake < c.backedStake
      · rw [if_pos hb]
        exact List.mem_cons_of_mem _ (List.mem_cons_self _ _)
      · rw [if_neg hb]
        exact List.mem_cons_self _ _
    · exact List.mem_cons_of_mem _ (List.mem_cons_of_mem _ h1)

/-- The reduce result is the first roast attaining the maximum: every
roast strictly before it in the list has strictly smaller backedStake
(the strict > in the source keeps prev on ties). -/
theorem reduceWinner_first (rs : List RoastEntry) :
    ∀ r, ∃ l₁ l₂, r :: rs = l₁ ++ reduceWinner r rs :: l₂ ∧
      ∀ x ∈ l₁, x.backedStake < (reduceWinner r rs).backedStake := by
  induction rs with
  | nil =>
    intro r
    refine ⟨[], [], ?_, ?_⟩
    · rw [reduceWinner_nil]
      rfl
    · intro x hx
      exact absurd hx (List.not_mem_nil x)
  | cons c rest ih =>
    intro r
    rw [reduceWinner_cons]
    by_cases hb : r.backedStake < c.backedStake
    · rw [if_pos hb]
      obtain ⟨l₁, l₂, heq, hlt⟩ := ih c
      refine ⟨r :: l₁, l₂, ?_, ?_⟩
      · rw [List.cons_append, ← heq]
      · intro x hx
        rcases List.mem_cons.mp hx with hx | hx
        · subst hx
          have hcle : c.backedStake ≤ (reduceWinner c rest).backedStake :=
            reduceWinner_le rest c c (List.mem_cons_self _ _)
          exact lt_of_lt_of_le hb hcle
        · exact hlt x hx
    · rw [if_neg hb]
      obtain ⟨l₁, l₂, heq, hlt⟩ := ih r
      cases l₁ with
      | nil =>
        rw [List.nil_append] at heq
        injection heq with h1 h2
        refine ⟨[], c :: rest, ?_, ?_⟩
        · rw [List.nil_append, ← h1]
        · intro x hx
          exact absurd hx (List.not_mem_nil x)
      | cons a l₁t =>
        rw [List.cons_append] at heq
        injection heq with h1 h2
        have hrlt : r.backedStake < (reduceWinner r rest).backedStake := by
          have : r ∈ a :: l₁t := by
            rw [h1]
            exact List.mem_cons_self _ _
          exact hlt r this
        refine ⟨r :: c :: l₁t, l₂, ?_, ?_⟩
        · rw [List.cons_append, List.cons_append, ← h2]
        · intro x hx
          rcases List.mem_cons.mp hx with hx | hx
          · subst hx
            exact hrlt
          rcases List.mem_cons.mp hx with hx | hx
          · subst hx
            exact lt_of_le_of_lt (le_of_not_lt hb) hrlt
          · exact hlt x (List.mem_cons_of_mem _ hx)

/-- Unfolding the tick step on an expired active arena with a nonempty
roast list. -/
theorem tickArena_expired_cons (now : ℕ) (a : Arena) (r : RoastEntry)
    (rs : List RoastEntry) (hact : a.status = Status.active)
    (hexp : a.endTime ≤ now) (hr : a.roasts = r :: rs) :
    tickArena now a =
      ({ a with
          status := Status.resolved
          winnerRoastId := some (reduceWinner r rs).id },
       ["ROAST WARS ENDED: " ++ (reduceWinner r rs).roasterName ++
          " won the pool!"]) := by
  unfold tickArena
  rw [if_pos ⟨hact, hexp⟩, hr]

/-- Unfolding the tick step on an expired active arena with no roasts. -/
theorem tickArena_expired_nil (now : ℕ) (a : Arena)
    (hact : a.status = Status.active) (hexp : a.endTime ≤ now)
    (hr : a.roasts = []) :
    tickArena now a =
      ({ a with status := Status.resolved },
       ["Arena by " ++ a.opHandle ++ " closed with no roasts."]) := by
  unfold tickArena
  rw [if_pos ⟨hact, hexp⟩, hr]

/-- Unfolding the tick step when the guard fails: the arena is returned
unchanged and nothing is logged. -/
theorem tickArena_not_expired (now : ℕ) (a : Arena)
    (h : ¬(a.status = Status.active ∧ a.endTime ≤ now)) :
    tickArena now a = (a, []) := by
  unfold tickArena
  rw [if_neg h]

/-- An already-resolved arena is never touched by the tick step. -/
theorem tickArena_resolved (now : ℕ) (a : Arena)
    (h : a.status = Status.resolved) : tickArena now a = (a, []) := by
  apply tickArena_not_expired
  intro hc
  rw [h] at hc
  exact Status.noConfusion hc.1

/-- The tick step only ever writes status and winnerRoastId: every other
field of the arena survives unchanged. -/
theorem tickArena_frame (now : ℕ) (a : Arena) :
    (tickArena now a).1.id = a.id ∧
    (tickArena now a).1.opId = a.opId ∧
    (tickArena now a).1.opName = a.opName ∧
    (tickArena now a).1.opHandle = a.opHandle ∧
    (tickArena now a).1.opAvatar = a.opAvatar ∧
    (tickArena now a).1.text = a.text ∧
    (tickArena now a).1.stake = a.stake ∧
    (tickArena now a).1.endTime = a.endTime ∧
    (tickArena now a).1.roasts = a.roasts := by
  by_cases h : a.status = Status.active ∧ a.endTime ≤ now
  · cases hr : a.roasts with
    | nil =>
      rw [tickArena_expired_nil now a h.1 h.2 hr]
      exact ⟨rfl, rfl, rfl, rfl, rfl, rfl, rfl, rfl, hr⟩
    | cons r rs =>
      rw [tickArena_expired_cons now a r rs h.1 h.2 hr]
      exact ⟨rfl, rfl, rfl, rfl, rfl, rfl, rfl, rfl, hr⟩
  · rw [tickArena_not_expired now a h]
    exact ⟨rfl, rfl, rfl, rfl, rfl, rfl, rfl, rfl, rfl⟩

/-- C1: for every resolved arena with at least one entry, winningEntryId
refers to the entry with maximal backedTotal, and when two or more
entries share the maximal backedTotal the earliest-submitted one (first
in insertion order) is selected: when the settlement tick resolves an
expired active arena with roast list r :: rs, the recorded winnerRoastId
is the id of a roast w dominating every roast's backedStake, and every
roast strictly before w in insertion order is strictly smaller. -/
theorem c1_winner_max_earliest (now : ℕ) (a : Arena) (r : RoastEntry)
    (rs : List RoastEntry) (hact : a.status = Status.active)
    (hexp : a.endTime ≤ now) (hr : a.roasts = r :: rs) :
    ∃ w : RoastEntry,
      (tickArena now a).1.winnerRoastId = some w.id ∧
      (∀ x ∈ a.roasts, x.backedStake ≤ w.backedStake) ∧
      ∃ l₁ l₂, a.roasts = l₁ ++ w :: l₂ ∧
        ∀ x ∈ l₁, x.backedStake < w.backedStake := by
  refine ⟨reduceWinner r rs, ?_, ?_, ?_⟩
  · rw [tickArena_expired_cons now a r rs hact hexp hr]
  · rw [hr]
    exact reduceWinner_le rs r
  · rw [hr]
    exact reduceWinner_first rs r

/-- Witness for C1: the mock arena (r1 backed 0.07, r2 backed 0.04)
resolved at its deadline satisfies the hypotheses, and the winner
property holds there. -/
theorem c1_winner_max_earliest_witness :
    (mockArena.status = Status.active ∧ mockArena.endTime ≤ 300000 ∧
      mockArena.roasts = [roastR1, roastR2]) ∧
    ∃ w : RoastEntry,
      (tickArena 300000 mockArena).1.winnerRoastId = some w.id ∧
      (∀ x ∈ mockArena.roasts, x.backedStake ≤ w.backedStake) ∧
      ∃ l₁ l₂, mockArena.roasts = l₁ ++ w :: l₂ ∧
        ∀ x ∈ l₁, x.backedStake < w.backedStake :=
  ⟨⟨rfl, by decide, rfl⟩,
   c1_winner_max_earliest 300000 mockArena roastR1 [roastR2] rfl (by decide) rfl⟩

/-- Folding logActivity over any message list never touches arenas. -/
theorem foldl_logActivity_arenas (now : ℕ) (msgs : List String) :
    ∀ s : ServerState,
      (msgs.foldl (fun t m => logActivity now m t) s).arenas = s.arenas := by
  induction msgs with
  | nil => intro s; rfl
  | cons m ms ih =>
    intro s
    rw [List.foldl_cons]
    exact ih (logActivity now m s)

/-- Folding logActivity over any message list never touches broadcasts. -/
theorem foldl_logActivity_broadcasts (now : ℕ) (msgs : List String) :
    ∀ s : ServerState,
      (msgs.foldl (fun t m => logActivity now m t) s).broadcasts =
        s.broadcasts := by
  induction msgs with
  | nil => intro s; rfl
  | cons m ms ih =>
    intro s
    rw [List.foldl_cons]
    exact ih (logActivity now m s)

/-- The tick maps every arena through tickArena, elementwise. -/
theorem tick_arenas (now : ℕ) (s : ServerState) :
    (tick now s).arenas = s.arenas.map (fun a => (tickArena now a).1) := by
  simp only [tick]
  split
  · show ((((s.arenas.map (tickArena now)).map Prod.snd).flatten.foldl
        (fun t m => logActivity now m t)
        { s with arenas := (s.arenas.map (tickArena now)).map Prod.fst }).arenas) = _
    rw [foldl_logActivity_arenas]
    show (s.arenas.map (tickArena now)).map Prod.fst = _
    rw [List.map_map]
    rfl
  · rw [foldl_logActivity_arenas]
    show (s.arenas.map (tickArena now)).map Prod.fst = _
    rw [List.map_map]
    rfl

/-- The tick emits exactly one state-update broadcast when some arena hit
its deadline (didUpdate), and none otherwise. -/
theorem tick_broadcasts (now : ℕ) (s : ServerState) :
    (tick now s).broadcasts =
      if s.arenas.any
          (fun a => decide (a.status = Status.active ∧ a.endTime ≤ now))
      then s.broadcasts ++ [s.arenas.map (fun a => (tickArena now a).1)]
      else s.broadcasts := by
  simp only [tick]
  split
  · simp only [foldl_logActivity_broadcasts, foldl_logActivity_arenas,
      List.map_map]
    rfl
  · simp only [foldl_logActivity_broadcasts]

/-- The tick leaves the activity log as the fold of logActivity over the
emitted messages (the broadcast branch does not touch it). -/
theorem tick_activityLog (now : ℕ) (s : ServerState) :
    (tick now s).activityLog =
      (((s.arenas.map (tickArena now)).map Prod.snd).flatten.foldl
        (fun t m => logActivity now m t)
        { s with arenas := (s.arenas.map (tickArena now)).map Prod.fst
        }).activityLog := by
  simp only [tick]
  split <;> rfl

theorem createArenaHandler_arenas (d : ArenaData) (i : String) (now : ℕ)
    (s : ServerState) :
    (createArenaHandler d i now s).arenas = createArena d i now :: s.arenas :=
  rfl

theorem submitRoast_arenas (aid : String) (rd : RoastEntry) (now : ℕ)
    (s : ServerState) :
    (submitRoast aid rd now s).arenas = s.arenas.map (fun arena =>
      if arena.id ≠ aid then arena
      else { arena with roasts := arena.roasts ++ [rd] }) := rfl

theorem stakeRoast_arenas (aid rid : String) (amt : ℚ) (u : String) (now : ℕ)
    (s : ServerState) :
    (stakeRoast aid rid amt u now s).arenas = s.arenas.map (fun arena =>
      if arena.id ≠ aid then arena
      else { arena with roasts := arena.roasts.map (fun roast =>
          if roast.id ≠ rid then roast
          else { roast with backedStake := roast.backedStake + amt }) }) := rfl

theorem joinHandler_arenas (u : String) (now : ℕ) (s : ServerState) :
    (joinHandler u now s).arenas = s.arenas := rfl

/-- logActivity prepends the fresh entry and keeps exactly the first 14
old entries: eviction happens only at the back. -/
theorem logActivity_eq (now : ℕ) (msg : String) (s : ServerState) :
    (logActivity now msg s).activityLog =
      { id := toString s.nextId, message := msg, timestamp := now }
        :: s.activityLog.take 14 := by
  show ({ id := toString s.nextId, message := msg, timestamp := now }
        :: s.activityLog).take 15 = _
  rw [show (15 : ℕ) = 14 + 1 from rfl, List.take_succ_cons]

/-- The activity log never exceeds 15 entries after logActivity. -/
theorem logActivity_length_le (now : ℕ) (msg : String) (s : ServerState) :
    (logActivity now msg s).activityLog.length ≤ 15 := by
  show (({ id := toString s.nextId, message := msg, timestamp := now }
        :: s.activityLog).take 15).length ≤ 15
  rw [List.length_take]
  exact min_le_left _ _

/-- Example create-arena payload. -/
def dataEx : ArenaData :=
  { opId := "u1", opName := "DuveshTheDev", opHandle := "@duvesh_dev",
    opAvatar := "D", text := "hot take" }

/-- Reachability invariant: an active arena never carries a
winnerRoastId (it is only written together with status resolved). -/
def ActiveNoWinner (s : ServerState) : Prop :=
  ∀ a ∈ s.arenas, a.status = Status.active → a.winnerRoastId = none

theorem applyCmd_activeNoWinner (c : Cmd) (s : ServerState)
    (h : ActiveNoWinner s) : ActiveNoWinner (applyCmd c s) := by
  cases c with
  | tick now =>
    intro a' ha' hact'
    rw [show applyCmd (Cmd.tick now) s = tick now s from rfl,
      tick_arenas] at ha'
    obtain ⟨a, ha, rfl⟩ := List.mem_map.mp ha'
    by_cases hg : a.status = Status.active ∧ a.endTime ≤ now
    · exfalso
      cases hr : a.roasts with
      | nil =>
        rw [tickArena_expired_nil now a hg.1 hg.2 hr] at hact'
        exact Status.noConfusion hact'
      | cons r rs =>
        rw [tickArena_expired_cons now a r rs hg.1 hg.2 hr] at hact'
        exact Status.noConfusion hact'
    · rw [tickArena_not_expired now a hg] at hact' ⊢
      exact h a ha hact'
  | create d i now =>
    intro a' ha' hact'
    rw [show applyCmd (Cmd.create d i now) s = createArenaHandler d i now s
      from rfl, createArenaHandler_arenas] at ha'
    rcases List.mem_cons.mp ha' with h1 | h1
    · subst h1
      rfl
    · exact h a' h1 hact'
  | submit aid rd now =>
    intro a' ha' hact'
    rw [show applyCmd (Cmd.submit aid rd now) s = submitRoast aid rd now s
      from rfl, submitRoast_arenas] at ha'
    obtain ⟨a, ha, rfl⟩ := List.mem_map.mp ha'
    by_cases hg : a.id ≠ aid
    · rw [if_pos hg] at hact' ⊢
      exact h a ha hact'
    · rw [if_neg hg] at hact' ⊢
      exact h a ha hact'
  | stake aid rid amt u now =>
    intro a' ha' hact'
    rw [show applyCmd (Cmd.stake aid rid amt u now) s =
      stakeRoast aid rid amt u now s from rfl, stakeRoast_arenas] at ha'
    obtain ⟨a, ha, rfl⟩ := List.mem_map.mp ha'
    by_cases hg : a.id ≠ aid
    · rw [if_pos hg] at hact' ⊢
      exact h a ha hact'
    · rw [if_neg hg] at hact' ⊢
      exact h a ha hact'
  | join u now =>
    intro a' ha' hact'
    exact h a' ha' hact'

theorem run_activeNoWinner (cmds : List Cmd) :
    ∀ s : ServerState, ActiveNoWinner s → ActiveNoWinner (run cmds s) := by
  induction cmds with
  | nil => intro s h; exact h
  | cons c cs ih =>
    intro s h
    exact ih (applyCmd c s) (applyCmd_activeNoWinner c s h)

theorem initState_activeNoWinner : ActiveNoWinner initState := by
  intro a ha
  exact absurd ha (List.not_mem_nil a)

/-- C3: for every expired active arena (in any reachable server state)
with an empty entry list, resolution transitions it to Resolved with no
winningEntryId set, emits exactly one activity entry, and computes no
payout for any user. -/
theorem c3_empty_arena_resolution (cmds : List Cmd) (now : ℕ) (a : Arena)
    (ha : a ∈ (run cmds initState).arenas)
    (hact : a.status = Status.active) (hexp : a.endTime ≤ now)
    (hempty : a.roasts = []) :
    (tickArena now a).1.status = Status.resolved ∧
    (tickArena now a).1.winnerRoastId = none ∧
    (tickArena now a).2.length = 1 ∧
    ∀ uid : String, processPayout uid (tickArena now a).1 = 0 := by
  have hw : a.winnerRoastId = none :=
    run_activeNoWinner cmds initState initState_activeNoWinner a ha hact
  rw [tickArena_expired_nil now a hact hexp hempty]
  refine ⟨rfl, hw, rfl, ?_⟩
  intro uid
  have hlen : ({ a with status := Status.resolved } : Arena).roasts.length = 0 := by
    show a.roasts.length = 0
    rw [hempty]
    rfl
  unfold processPayout
  rw [if_pos hlen]

/-- Witness for C3: an arena created at time 0 in a fresh server reaches
its deadline at 300000 with no roasts and resolves as claimed. -/
theorem c3_empty_arena_resolution_witness :
    (createArena dataEx "a7" 0 ∈
        (run [Cmd.create dataEx "a7" 0] initState).arenas ∧
      (createArena dataEx "a7" 0).status = Status.active ∧
      (createArena dataEx "a7" 0).endTime ≤ 300000 ∧
      (createArena dataEx "a7" 0).roasts = []) ∧
    ((tickArena 300000 (createArena dataEx "a7" 0)).1.status =
        Status.resolved ∧
      (tickArena 300000 (createArena dataEx "a7" 0)).1.winnerRoastId = none ∧
      (tickArena 300000 (createArena dataEx "a7" 0)).2.length = 1 ∧
      ∀ uid : String,
        processPayout uid (tickArena 300000 (createArena dataEx "a7" 0)).1 = 0) :=
  ⟨⟨List.mem_cons_self _ _, rfl, by decide, rfl⟩,
   c3_empty_arena_resolution [Cmd.create dataEx "a7" 0] 300000
     (createArena dataEx "a7" 0) (List.mem_cons_self _ _) rfl (by decide) rfl⟩

/-- Any single command keeps every resolved arena present (same id) and
resolved. -/
theorem applyCmd_preserves_resolved (c : Cmd) (s : ServerState) (a : Arena)
    (ha : a ∈ s.arenas) (hres : a.status = Status.resolved) :
    ∃ a' ∈ (applyCmd c s).arenas,
      a'.id = a.id ∧ a'.status = Status.resolved := by
  cases c with
  | tick now =>
    refine ⟨a, ?_, rfl, hres⟩
    rw [show applyCmd (Cmd.tick now) s = tick now s from rfl, tick_arenas]
    have h1 : a = (tickArena now a).1 := by
      rw [tickArena_resolved now a hres]
    rw [h1]
    exact List.mem_map_of_mem _ ha
  | create d i now =>
    refine ⟨a, ?_, rfl, hres⟩
    rw [show applyCmd (Cmd.create d i now) s = createArenaHandler d i now s
      from rfl, createArenaHandler_arenas]
    exact List.mem_cons_of_mem _ ha
  | submit aid rd now =>
    rw [show applyCmd (Cmd.submit aid rd now) s = submitRoast aid rd now s
      from rfl, submitRoast_arenas]
    refine ⟨_, List.mem_map_of_mem _ ha, ?_, ?_⟩
    · by_cases hg : a.id ≠ aid
      · rw [if_pos hg]
      · rw [if_neg hg]
    · by_cases hg : a.id ≠ aid
      · rw [if_pos hg]
        exact hres
      · rw [if_neg hg]
        exact hres
  | stake aid rid amt u now =>
    rw [show applyCmd (Cmd.stake aid rid amt u now) s =
      stakeRoast aid rid amt u now s from rfl, stakeRoast_arenas]
    refine ⟨_, List.mem_map_of_mem _ ha, ?_, ?_⟩
    · by_cases hg : a.id ≠ aid
      · rw [if_pos hg]
      · rw [if_neg hg]
    · by_cases hg : a.id ≠ aid
      · rw [if_pos hg]
        exact hres
      · rw [if_neg hg]
        exact hres
  | join u now =>
    exact ⟨a, ha, rfl, hres⟩

theorem run_preserves_resolved (cmds : List Cmd) :
    ∀ (s : ServerState) (a : Arena), a ∈ s.arenas →
      a.status = Status.resolved →
      ∃ a' ∈ (run cmds s).arenas,
        a'.id = a.id ∧ a'.status = Status.resolved := by
  induction cmds with
  | nil =>
    intro s a ha hres
    exact ⟨a, ha, rfl, hres⟩
  | cons c cs ih =>
    intro s a ha hres
    obtain ⟨a', ha', hid, hres'⟩ := applyCmd_preserves_resolved c s a ha hres
    obtain ⟨a'', ha'', hid2, hres2⟩ := ih (applyCmd c s) a' ha' hres'
    exact ⟨a'', ha'', hid2.trans hid, hres2⟩

/-- C4: once an arena is Resolved it never reverts: after any further
sequence of commands and ticks an arena with its id is still present and
still Resolved, and the settlement tick never re-applies the resolution
step to it (it returns it unchanged and logs nothing). -/
theorem c4_resolved_monotonic (cmds : List Cmd) (s : ServerState) (a : Arena)
    (ha : a ∈ s.arenas) (hres : a.status = Status.resolved) :
    (∃ a' ∈ (run cmds s).arenas,
       a'.id = a.id ∧ a'.status = Status.resolved) ∧
    ∀ now : ℕ, tickArena now a = (a, []) := by
  refine ⟨run_preserves_resolved cmds s a ha hres, ?_⟩
  intro now
  exact tickArena_resolved now a hres

/-- Witness for C4 at the resolved mock arena, across a later tick. -/
theorem c4_resolved_monotonic_witness :
    (resolvedArenaEx ∈ sResolved.arenas ∧
      resolvedArenaEx.status = Status.resolved) ∧
    (∃ a' ∈ (run [Cmd.tick 400000] sResolved).arenas,
       a'.id = resolvedArenaEx.id ∧ a'.status = Status.resolved) ∧
    ∀ now : ℕ, tickArena now resolvedArenaEx = (resolvedArenaEx, []) :=
  ⟨⟨List.mem_cons_self _ _, rfl⟩,
   c4_resolved_monotonic [Cmd.tick 400000] sResolved resolvedArenaEx
     (List.mem_cons_self _ _) rfl⟩

/-- C2 is violated by the code: the submit-roast and stake-roast handlers
perform no status check, so against the resolved mock arena the roast is
appended, the stake is added, an activity entry is logged and a
state-update broadcast is emitted — nothing is rejected (the server has
no failure channel at all). -/
theorem c2_mutation_applied_to_resolved :
    resolvedArenaEx.status = Status.resolved ∧
    (submitRoast "a1" newRoastEx 400000 sResolved).arenas.map Arena.roasts =
      [[roastR1, roastR2, newRoastEx]] ∧
    (submitRoast "a1" newRoastEx 400000 sResolved).broadcasts.length = 1 ∧
    (stakeRoast "a1" "r2" (5 / 100) "@x" 400000 sResolved).arenas.map
        (fun a => a.roasts.map (fun r => r.backedStake)) =
      [[7 / 100, 4 / 100 + 5 / 100]] ∧
    (stakeRoast "a1" "r2" (5 / 100) "@x" 400000 sResolved).broadcasts.length =
      1 :=
  ⟨rfl, rfl, rfl, rfl, rfl⟩

/-- C5 is violated by the code: a submit-roast targeting an arena id not
present in the store leaves every arena unchanged, but no ArenaNotFound
result exists (there is no failure channel), an activity entry is still
logged, and a state-update broadcast of the arena collection is still
emitted. -/
theorem c5_unknown_id_still_broadcasts :
    (submitRoast "zzz" newRoastEx 400000 sResolved).arenas =
      sResolved.arenas ∧
    (submitRoast "zzz" newRoastEx 400000 sResolved).broadcasts.length =
      sResolved.broadcasts.length + 1 ∧
    (submitRoast "zzz" newRoastEx 400000 sResolved).activityLog.length =
      sResolved.activityLog.length + 1 ∧
    (stakeRoast "zzz" "r2" (5 / 100) "@x" 400000 sResolved).arenas =
      sResolved.arenas ∧
    (stakeRoast "zzz" "r2" (5 / 100) "@x" 400000 sResolved).broadcasts.length =
      sResolved.broadcasts.length + 1 :=
  ⟨rfl, rfl, rfl, rfl, rfl⟩

/-- The source's reduce-based pool sum equals the sum of backedStake. -/
theorem foldl_add_backedStake_init (l : List RoastEntry) :
    ∀ init : ℚ, l.foldl (fun sum r => sum + r.backedStake) init =
      init + (l.map (fun r => r.backedStake)).sum := by
  induction l with
  | nil =>
    intro init
    rw [List.foldl_nil, List.map_nil, List.sum_nil, add_zero]
  | cons r rs ih =>
    intro init
    rw [List.foldl_cons, ih, List.map_cons, List.sum_cons]
    ring

/-- C6: for a user who backed the winner (and is neither the winning
roaster nor the OP, isolating the backer component), the payout computed
by processPayout is exactly the spec formula
share = c + (c / W) × 0.9 × L with W the winner's backedTotal and L the
sum of backedTotal over the non-winning entries. -/
theorem c6_backer_share_formula (uid : String) (arena : Arena) (wid : String)
    (winner : RoastEntry)
    (hlen : ¬arena.roasts.length = 0)
    (hwid : arena.winnerRoastId = some wid)
    (hfind : arena.roasts.find? (fun r => r.id == wid) = some winner)
    (hback : 0 < winner.myBackedAmount)
    (hWpos : 0 < winner.backedStake)
    (hroaster : ¬winner.roasterId = uid)
    (hop : ¬arena.opId = uid) :
    processPayout uid arena =
      specBackerShare winner.myBackedAmount winner.backedStake
        (specLosingPool arena winner.id) := by
  unfold processPayout
  rw [if_neg hlen]
  simp only [hwid, hfind]
  rw [if_pos ⟨hback, hWpos⟩, if_neg hroaster, if_neg hop]
  unfold specBackerShare specLosingPool
  rw [foldl_add_backedStake_init, zero_add]
  ring

/-- Witness for C6: in the resolved mock arena, a user who backed the
full winning pool 0.07 against the losing pool 0.04 is paid
0.07 + (0.07 / 0.07) × 0.9 × 0.04 = 0.106 = 53/500. -/
theorem c6_backer_share_formula_witness :
    (¬resolvedArenaC6.roasts.length = 0 ∧
      resolvedArenaC6.winnerRoastId = some "r1" ∧
      resolvedArenaC6.roasts.find? (fun r => r.id == "r1") =
        some roastR1Backed ∧
      0 < roastR1Backed.myBackedAmount ∧ 0 < roastR1Backed.backedStake ∧
      ¬roastR1Backed.roasterId = "u9" ∧ ¬resolvedArenaC6.opId = "u9") ∧
    processPayout "u9" resolvedArenaC6 =
      specBackerShare roastR1Backed.myBackedAmount roastR1Backed.backedStake
        (specLosingPool resolvedArenaC6 roastR1Backed.id) ∧
    specBackerShare roastR1Backed.myBackedAmount roastR1Backed.backedStake
        (specLosingPool resolvedArenaC6 roastR1Backed.id) = 53 / 500 := by
  refine ⟨⟨by decide, rfl, rfl, by norm_num [roastR1Backed, roastR1],
      by norm_num [roastR1Backed, roastR1], by decide, by decide⟩,
    c6_backer_share_formula "u9" resolvedArenaC6 "r1" roastR1Backed
      (by decide) rfl rfl (by norm_num [roastR1Backed, roastR1])
      (by norm_num [roastR1Backed, roastR1]) (by decide) (by decide), ?_⟩
  show specBackerShare (7 / 100) (7 / 100) ((4 : ℚ) / 100 + 0) = 53 / 500
  norm_num [specBackerShare]

/-- didUpdate is set exactly when some arena is active past its
deadline. -/
theorem didUpdate_iff (now : ℕ) (s : ServerState) :
    (s.arenas.any
      (fun a => decide (a.status = Status.active ∧ a.endTime ≤ now)) = true)
      ↔ ∃ a ∈ s.arenas, a.status = Status.active ∧ a.endTime ≤ now := by
  rw [List.any_eq_true]
  simp only [decide_eq_true_eq]

/-- C7: a settlement tick resolves every expired active arena in that
same tick (afterwards no arena is both active and past the deadline),
appends exactly one broadcast of the full arena collection when at least
one arena was mutated, and appends none when nothing was. -/
theorem c7_tick_resolves_all_broadcasts_once (now : ℕ) (s : ServerState) :
    (∀ a' ∈ (tick now s).arenas,
      ¬(a'.status = Status.active ∧ a'.endTime ≤ now)) ∧
    ((∃ a ∈ s.arenas, a.status = Status.active ∧ a.endTime ≤ now) →
      (tick now s).broadcasts = s.broadcasts ++ [(tick now s).arenas]) ∧
    (¬(∃ a ∈ s.arenas, a.status = Status.active ∧ a.endTime ≤ now) →
      (tick now s).broadcasts = s.broadcasts) := by
  refine ⟨?_, ?_, ?_⟩
  · intro a' ha'
    rw [tick_arenas] at ha'
    obtain ⟨a, ha, rfl⟩ := List.mem_map.mp ha'
    by_cases hg : a.status = Status.active ∧ a.endTime ≤ now
    · cases hr : a.roasts with
      | nil =>
        rw [tickArena_expired_nil now a hg.1 hg.2 hr]
        intro hc
        exact Status.noConfusion hc.1
      | cons r rs =>
        rw [tickArena_expired_cons now a r rs hg.1 hg.2 hr]
        intro hc
        exact Status.noConfusion hc.1
    · rw [tickArena_not_expired now a hg]
      exact hg
  · intro hex
    rw [tick_broadcasts, if_pos ((didUpdate_iff now s).mpr hex), tick_arenas]
  · intro hex
    rw [tick_broadcasts,
      if_neg (fun h => hex ((didUpdate_iff now s).mp h))]

/-- Witness for C7: the expired mock arena triggers exactly one
state-update broadcast at its deadline. -/
theorem c7_tick_resolves_all_broadcasts_once_witness :
    (∃ a ∈ sExpired.arenas,
      a.status = Status.active ∧ a.endTime ≤ 300000) ∧
    (tick 300000 sExpired).broadcasts =
      sExpired.broadcasts ++ [(tick 300000 sExpired).arenas] :=
  ⟨⟨mockArena, List.mem_cons_self _ _, rfl, by decide⟩,
   (c7_tick_resolves_all_broadcasts_once 300000 sExpired).2.1
     ⟨mockArena, List.mem_cons_self _ _, rfl, by decide⟩⟩

/-- Any single command preserves every arena's id and endTime: the
deadline of an existing arena is never mutated. -/
theorem applyCmd_preserves_endTime (c : Cmd) (s : ServerState) (a : Arena)
    (ha : a ∈ s.arenas) :
    ∃ a' ∈ (applyCmd c s).arenas, a'.id = a.id ∧ a'.endTime = a.endTime := by
  cases c with
  | tick now =>
    rw [show applyCmd (Cmd.tick now) s = tick now s from rfl, tick_arenas]
    exact ⟨(tickArena now a).1, List.mem_map_of_mem _ ha,
      (tickArena_frame now a).1,
      (tickArena_frame now a).2.2.2.2.2.2.2.1⟩
  | create d i now =>
    exact ⟨a, List.mem_cons_of_mem _ ha, rfl, rfl⟩
  | submit aid rd now =>
    rw [show applyCmd (Cmd.submit aid rd now) s = submitRoast aid rd now s
      from rfl, submitRoast_arenas]
    refine ⟨_, List.mem_map_of_mem _ ha, ?_, ?_⟩
    · by_cases hg : a.id ≠ aid
      · rw [if_pos hg]
      · rw [if_neg hg]
    · by_cases hg : a.id ≠ aid
      · rw [if_pos hg]
      · rw [if_neg hg]
  | stake aid rid amt u now =>
    rw [show applyCmd (Cmd.stake aid rid amt u now) s =
      stakeRoast aid rid amt u now s from rfl, stakeRoast_arenas]
    refine ⟨_, List.mem_map_of_mem _ ha, ?_, ?_⟩
    · by_cases hg : a.id ≠ aid
      · rw [if_pos hg]
      · rw [if_neg hg]
    · by_cases hg : a.id ≠ aid
      · rw [if_pos hg]
      · rw [if_neg hg]
  | join u now =>
    exact ⟨a, ha, rfl, rfl⟩

theorem run_preserves_endTime (cmds : List Cmd) :
    ∀ (s : ServerState) (a : Arena), a ∈ s.arenas →
      ∃ a' ∈ (run cmds s).arenas,
        a'.id = a.id ∧ a'.endTime = a.endTime := by
  induction cmds with
  | nil =>
    intro s a ha
    exact ⟨a, ha, rfl, rfl⟩
  | cons c cs ih =>
    intro s a ha
    obtain ⟨a', ha', hid, hend⟩ := applyCmd_preserves_endTime c s a ha
    obtain ⟨a'', ha'', hid2, hend2⟩ := ih (applyCmd c s) a' ha'
    exact ⟨a'', ha'', hid2.trans hid, hend2.trans hend⟩

/-- C8: createArena returns an arena whose deadline is the creation time
plus 5 minutes (in ms), whose status is Active and whose entry list is
empty; and no later operation ever mutates the deadline of an arena
already in the store. -/
theorem c8_create_fields_deadline_immutable (d : ArenaData) (i : String)
    (now : ℕ) :
    (createArena d i now).endTime = now + 5 * 60 * 1000 ∧
    (createArena d i now).status = Status.active ∧
    (createArena d i now).roasts = [] ∧
    ∀ (cmds : List Cmd) (s : ServerState) (a : Arena), a ∈ s.arenas →
      ∃ a' ∈ (run cmds s).arenas,
        a'.id = a.id ∧ a'.endTime = a.endTime :=
  ⟨rfl, rfl, rfl, fun cmds s a ha => run_preserves_endTime cmds s a ha⟩

/-- Witness for C8: concrete creation at time 0, and deadline
preservation of the mock arena across a settling tick. -/
theorem c8_create_fields_deadline_immutable_witness :
    ((createArena dataEx "a9" 0).endTime = 0 + 5 * 60 * 1000 ∧
      (createArena dataEx "a9" 0).status = Status.active ∧
      (createArena dataEx "a9" 0).roasts = []) ∧
    (mockArena ∈ sExpired.arenas ∧
      ∃ a' ∈ (run [Cmd.tick 300000] sExpired).arenas,
        a'.id = mockArena.id ∧ a'.endTime = mockArena.endTime) :=
  ⟨⟨(c8_create_fields_deadline_immutable dataEx "a9" 0).1,
    (c8_create_fields_deadline_immutable dataEx "a9" 0).2.1,
    (c8_create_fields_deadline_immutable dataEx "a9" 0).2.2.1⟩,
   ⟨List.mem_cons_self _ _,
    (c8_create_fields_deadline_immutable dataEx "a9" 0).2.2.2
      [Cmd.tick 300000] sExpired mockArena (List.mem_cons_self _ _)⟩⟩

theorem foldl_logActivity_length (now : ℕ) (msgs : List String) :
    ∀ s : ServerState, s.activityLog.length ≤ 15 →
      (msgs.foldl (fun t m => logActivity now m t) s).activityLog.length
        ≤ 15 := by
  induction msgs with
  | nil =>
    intro s h
    exact h
  | cons m ms ih =>
    intro s h
    rw [List.foldl_cons]
    exact ih (logActivity now m s) (logActivity_length_le now m s)

theorem applyCmd_log_le (c : Cmd) (s : ServerState)
    (h : s.activityLog.length ≤ 15) :
    (applyCmd c s).activityLog.length ≤ 15 := by
  cases c with
  | tick now =>
    rw [show applyCmd (Cmd.tick now) s = tick now s from rfl,
      tick_activityLog]
    exact foldl_logActivity_length now _ _ h
  | create d i now => exact logActivity_length_le now _ _
  | submit aid rd now => exact logActivity_length_le now _ _
  | stake aid rid amt u now => exact logActivity_length_le now _ _
  | join u now => exact logActivity_length_le now _ _

theorem run_log_le (cmds : List Cmd) :
    ∀ s : ServerState, s.activityLog.length ≤ 15 →
      (run cmds s).activityLog.length ≤ 15 := by
  induction cmds with
  | nil =>
    intro s h
    exact h
  | cons c cs ih =>
    intro s h
    exact ih (applyCmd c s) (applyCmd_log_le c s h)

/-- C9: after every sequence of operations the activity log holds at
most 15 entries; every append puts the new entry at the front and keeps
exactly the first 14 old entries, so entries are only ever evicted from
the back. -/
theorem c9_activity_log_bounded (cmds : List Cmd) :
    (run cmds initState).activityLog.length ≤ 15 ∧
    ∀ (now : ℕ) (msg : String) (s : ServerState),
      (logActivity now msg s).activityLog =
        { id := toString s.nextId, message := msg, timestamp := now }
          :: s.activityLog.take 14 :=
  ⟨run_log_le cmds initState (by decide),
   fun now msg s => logActivity_eq now msg s⟩

/-- C10: resolving an arena changes only its status and winnerRoastId —
id, originator fields, statement text, stake, deadline and the entire
roast list are untouched — arenas that are not expired-active are
returned literally unchanged, and the tick acts elementwise on the
collection, so every other arena is unchanged by one arena's
resolution. -/
theorem c10_resolution_frame (now : ℕ) (s : ServerState) (a : Arena) :
    (¬(a.status = Status.active ∧ a.endTime ≤ now) →
      tickArena now a = (a, [])) ∧
    ((tickArena now a).1.id = a.id ∧
      (tickArena now a).1.opId = a.opId ∧
      (tickArena now a).1.opName = a.opName ∧
      (tickArena now a).1.opHandle = a.opHandle ∧
      (tickArena now a).1.opAvatar = a.opAvatar ∧
      (tickArena now a).1.text = a.text ∧
      (tickArena now a).1.stake = a.stake ∧
      (tickArena now a).1.endTime = a.endTime ∧
      (tickArena now a).1.roasts = a.roasts) ∧
    (tick now s).arenas = s.arenas.map (fun x => (tickArena now x).1) :=
  ⟨fun h => tickArena_not_expired now a h, tickArena_frame now a,
   tick_arenas now s⟩

/-- Witness for C10: the resolved mock arena is not expired-active, and
the tick step returns it literally unchanged. -/
theorem c10_resolution_frame_witness :
    ¬(resolvedArenaEx.status = Status.active ∧
        resolvedArenaEx.endTime ≤ 400000) ∧
    tickArena 400000 resolvedArenaEx = (resolvedArenaEx, []) :=
  ⟨fun h => Status.noConfusion h.1,
   (c10_resolution_frame 400000 sResolved resolvedArenaEx).1
     (fun h => Status.noConfusion h.1)⟩
